import Mathlib

/-!
# TEx editor (tex.c, v1.0.2) — shallow embedding and verification

This file embeds the editing engine of the TEx terminal text editor in Lean 4
and proves properties of its row store, coordinate mapper, viewport scrolling,
persistence round trip, key dispatch and input decoding.

Bytes are modelled as `Nat`; a row's `chars` buffer is modelled as the list of
its first `size` bytes (the C code keeps `chars` NUL-terminated with length
`size`, so the observable content is exactly that prefix).  C `int` values
that can go negative (cursor, offsets, sizes passed as arguments) are
modelled as `Int`.  Terminal I/O, the status message text and its timestamp
are not modelled; they do not feed back into the buffer, cursor or viewport
state.
-/

namespace TEx

/-- Tab stop (`#define TABS_TO_SPACES 8`). -/
def TABS_TO_SPACES : Nat := 8

/-- Quit-confirmation counter initial value (`#define FORCE_QUIT 2`). -/
def FORCE_QUIT : Int := 2

/-- One text row: raw bytes `chars` and derived tab-expanded bytes `render`
(the C struct `erow`; its `size` and `ren_sz` fields are the lengths of the
two lists). -/
structure ERow where
  chars : List Nat
  render : List Nat
deriving Repr, DecidableEq, Inhabited

/-- `erow.size` of a modelled row. -/
def ERow.size (r : ERow) : Int := r.chars.length

/-- `erow.ren_sz` of a modelled row. -/
def ERow.ren_sz (r : ERow) : Int := r.render.length

/-- One step of the render loop of `editorUpdateRow`: a tab emits one space
then spaces until the render index is a multiple of `TABS_TO_SPACES`; any
other byte is copied. -/
def renderStep (r : List Nat) (c : Nat) : List Nat :=
  if c = 9 then
    let r1 := r ++ [32]
    r1 ++ List.replicate ((TABS_TO_SPACES - r1.length % TABS_TO_SPACES) % TABS_TO_SPACES) 32
  else r ++ [c]

/-- The render form computed by `editorUpdateRow` from a row's `chars`. -/
def renderChars (chars : List Nat) : List Nat :=
  chars.foldl renderStep []

/-- `editorUpdateRow`: regenerate `render` (and `ren_sz`) from `chars`. -/
def editorUpdateRow (row : ERow) : ERow :=
  { row with render := renderChars row.chars }

/-- Build a fresh row from a byte string, as `editorAppendChar` does
(copy `chars`, then `editorUpdateRow`). -/
def mkRow (s : List Nat) : ERow :=
  editorUpdateRow { chars := s, render := [] }

/-- `utilCur2Ren`: map a raw cursor column to a render column.  Walks the
first `cur_x` bytes; a tab advances `ren_x` to the next multiple of 8
(`ren_x += 7 - ren_x % 8` then `+1`), any other byte advances it by 1. -/
def utilCur2Ren (row : ERow) (cur_x : Int) : Int :=
  (row.chars.take cur_x.toNat).foldl
    (fun ren_x c =>
      (if c = 9 then ren_x + (7 - ren_x % 8) else ren_x) + 1) 0

/-- `utilCharInsert`: insert byte `c` into `chars` at `at` (an `at` outside
`[0, size]` is replaced by `size`), then `editorUpdateRow`.  (The
accompanying `conf.mod++` is applied by the state-level wrapper.) -/
def utilCharInsert (row : ERow) (pos : Int) (c : Nat) : ERow :=
  let pos := if pos < 0 ∨ pos > row.size then row.size else pos
  editorUpdateRow
    { row with chars := row.chars.take pos.toNat ++ c :: row.chars.drop pos.toNat }

/-- `utilCharDel`: return unchanged when `at < 0` or `at > size`; otherwise
shift `chars[at+1..size)` down onto `at` and decrement `size`, then
`editorUpdateRow`.  For `at < size` this removes the byte at `at`; for
`at = size` the `memmove` copies nothing and the decrement drops the last
byte — the final `take (length - 1)` renders both cases.  (When `size = 0`
and `at = 0` the C decrement drives `size` to `-1`, after which every later
use of the row is undefined behaviour; the model clamps that corner to the
empty row.) -/
def utilCharDel (row : ERow) (pos : Int) : ERow :=
  if pos < 0 ∨ pos > row.size then row
  else
    editorUpdateRow
      { row with
        chars := (row.chars.take pos.toNat ++ row.chars.drop (pos.toNat + 1)).take
          (row.chars.length - 1) }

/-- `editorAppendString` on the row itself: concatenate `s` onto `chars`,
then `editorUpdateRow`.  (`conf.mod++` is applied by the caller's state.) -/
def editorAppendString (row : ERow) (s : List Nat) : ERow :=
  editorUpdateRow { row with chars := row.chars ++ s }

/-- `utilRow2Str`: serialize the row store — each row's `chars` followed by
a newline byte, in document order (the C loop copies row `i` then writes
`'\n'`, left to right; this recursion produces the same concatenation). -/
def utilRow2Str : List ERow → List Nat
  | [] => []
  | r :: rs => r.chars ++ 10 :: utilRow2Str rs

/-- The line splitting performed by the `getline` loop of `editorOpen`:
each produced chunk includes its terminating newline; a final unterminated
chunk is produced only when nonempty (on EOF `getline` returns `-1` and the
loop stops). -/
def splitLinesAux : List Nat → List Nat → List (List Nat)
  | [], acc => if acc = [] then [] else [acc.reverse]
  | c :: rest, acc =>
    if c = 10 then (acc.reverse ++ [10]) :: splitLinesAux rest []
    else splitLinesAux rest (c :: acc)

/-- The trailing-terminator strip of `editorOpen`: drop bytes from the end
while the last byte is `'\n'` or `'\r'`. -/
def stripTrailingNLCR (l : List Nat) : List Nat :=
  (l.reverse.dropWhile (fun c => c = 10 ∨ c = 13)).reverse

/-- The rows produced by `editorOpen` from a file's byte content: one row
per `getline` line, each stripped of trailing `'\n'`/`'\r'` and appended in
order via `editorAppendChar(conf.n_rows, line, len)`. -/
def editorOpenRows (s : List Nat) : List ERow :=
  (splitLinesAux s []).map (fun l => mkRow (stripTrailingNLCR l))

/-- The mutable editor session state (the fields of `struct texConfig` that
the editing engine reads or writes; `n_rows` is `rows.length`).  The status
message, its timestamp, `file_name` and the saved `termios` are not
modelled. -/
structure EState where
  rows : List ERow
  cur_x : Int
  cur_y : Int
  ren_x : Int
  off_row : Int
  off_col : Int
  dispRows : Int
  dispCols : Int
  mod : Int
deriving Repr, DecidableEq, Inhabited

/-- `conf.n_rows`. -/
def EState.n_rows (st : EState) : Int := st.rows.length

/-- `editorAppendChar(at, s, len)`: insert a fresh row built from `s` at
index `pos` (no-op when `pos < 0` or `pos > n_rows`), shifting later rows
up; `n_rows++`, `conf.mod++`. -/
def editorAppendChar (st : EState) (pos : Int) (s : List Nat) : EState :=
  if pos < 0 ∨ pos > st.n_rows then st
  else
    { st with
      rows := st.rows.take pos.toNat ++ mkRow s :: st.rows.drop pos.toNat
      mod := st.mod + 1 }

/-- `editorRemoveRow(at)`: no-op when `at < 0` or `at ≥ n_rows`; otherwise
shift rows after `at` down (dropping row `at`), `n_rows--`, `conf.mod++`. -/
def editorRemoveRow (st : EState) (pos : Int) : EState :=
  if pos < 0 ∨ pos ≥ st.n_rows then st
  else
    { st with
      rows := st.rows.take pos.toNat ++ st.rows.drop (pos.toNat + 1)
      mod := st.mod + 1 }

/-- `editorInsertNewLine`: at column 0 insert an empty row at `cur_y`;
otherwise insert a row holding `chars[cur_x:]` of the current row at
`cur_y + 1` and truncate the current row to `chars[:cur_x]` (re-rendered).
Finally `cur_y++`, `cur_x = 0`. -/
def editorInsertNewLine (st : EState) : EState :=
  let st1 :=
    if st.cur_x = 0 then editorAppendChar st st.cur_y []
    else
      let row := st.rows.getD st.cur_y.toNat default
      let st1 := editorAppendChar st (st.cur_y + 1) (row.chars.drop st.cur_x.toNat)
      let newRow := editorUpdateRow { row with chars := row.chars.take st.cur_x.toNat }
      { st1 with rows := st1.rows.set st.cur_y.toNat newRow }
  { st1 with cur_y := st1.cur_y + 1, cur_x := 0 }

/-- `editorInputChar(c)`: when the cursor sits on the virtual append row
(`cur_y == n_rows`) first append an empty row at the end; then
`utilCharInsert` the byte at `(cur_y, cur_x)` (with its `conf.mod++`) and
advance `cur_x`. -/
def editorInputChar (st : EState) (c : Nat) : EState :=
  let st :=
    if st.cur_y = st.n_rows then editorAppendChar st st.n_rows [] else st
  { st with
    rows := st.rows.set st.cur_y.toNat
      (utilCharInsert (st.rows.getD st.cur_y.toNat default) st.cur_x c)
    mod := st.mod + 1
    cur_x := st.cur_x + 1 }

/-- `utilCharDel` applied through the session state: the row mutation and
its `conf.mod++` happen only when the guard `0 ≤ at ≤ size` admits them. -/
def utilCharDelS (st : EState) (idx : Nat) (pos : Int) : EState :=
  let row := st.rows.getD idx default
  if pos < 0 ∨ pos > row.size then st
  else { st with rows := st.rows.set idx (utilCharDel row pos), mod := st.mod + 1 }

/-- `editorRemoveChar`: nothing on the virtual append row or at the very
start of the buffer; at `cur_x > 0` delete the byte left of the cursor and
step back; at column 0 of a later row set `cur_x` to the previous row's
size, append this row's `chars` onto the previous row (`conf.mod++`),
remove this row (`conf.mod++`), and `cur_y--`. -/
def editorRemoveChar (st : EState) : EState :=
  if st.cur_y = st.n_rows then st
  else if st.cur_x = 0 ∧ st.cur_y = 0 then st
  else
    let row := st.rows.getD st.cur_y.toNat default
    if st.cur_x > 0 then
      let st1 := utilCharDelS st st.cur_y.toNat (st.cur_x - 1)
      { st1 with cur_x := st1.cur_x - 1 }
    else
      let prev := st.rows.getD (st.cur_y - 1).toNat default
      let st1 := { st with cur_x := prev.size }
      let st2 :=
        { st1 with
          rows := st1.rows.set (st.cur_y - 1).toNat (editorAppendString prev row.chars)
          mod := st1.mod + 1 }
      let st3 := editorRemoveRow st2 st.cur_y
      { st3 with cur_y := st3.cur_y - 1 }

/-- `editorScroll`: derive `ren_x` from `cur_x` (0 on the virtual append
row), then clamp `off_row` and `off_col` so the cursor cell is inside the
display window. -/
def editorScroll (st : EState) : EState :=
  let rx : Int :=
    if st.cur_y < st.n_rows then
      utilCur2Ren (st.rows.getD st.cur_y.toNat default) st.cur_x
    else 0
  let or1 : Int := if st.cur_y < st.off_row then st.cur_y else st.off_row
  let or2 : Int := if st.cur_y ≥ or1 + st.dispRows then st.cur_y - st.dispRows + 1 else or1
  let oc1 : Int := if rx < st.off_col then rx else st.off_col
  let oc2 : Int := if rx ≥ oc1 + st.dispCols then rx - st.dispCols + 1 else oc1
  { st with ren_x := rx, off_row := or2, off_col := oc2 }

/-- `enum navKey` and the control-key codes used by `texProcessKey`
(`CTRL_KEY(k) = k & 0x1f`). -/
def BKSP_KEY : Nat := 127

/-- `ARR_UP = 1000` (chosen out of the byte range). -/
def ARR_UP : Nat := 1000

/-- `ARR_DOWN`. -/
def ARR_DOWN : Nat := 1001

/-- `ARR_LEFT`. -/
def ARR_LEFT : Nat := 1002

/-- `ARR_RIGHT`. -/
def ARR_RIGHT : Nat := 1003

/-- `PAGE_UP`. -/
def PAGE_UP : Nat := 1004

/-- `PAGE_DOWN`. -/
def PAGE_DOWN : Nat := 1005

/-- `HOME_KEY`. -/
def HOME_KEY : Nat := 1006

/-- `END_KEY`. -/
def END_KEY : Nat := 1007

/-- `DEL_KEY`. -/
def DEL_KEY : Nat := 1008

/-- `CTRL_KEY('q') = 0x11`. -/
def CTRL_Q : Nat := 17

/-- `CTRL_KEY('s') = 0x13`. -/
def CTRL_S : Nat := 19

/-- `CTRL_KEY('h') = 0x08`. -/
def CTRL_H : Nat := 8

/-- `CTRL_KEY('l') = 0x0c`. -/
def CTRL_L : Nat := 12

/-- `texNavCursor(key)`: move the cursor one step for an arrow key (with
line wrapping for Left at column 0 and Right at end of row), then clamp
`cur_x` to the current row's size (0 past the last row). -/
def texNavCursor (st : EState) (key : Nat) : EState :=
  let n := st.n_rows
  let row? : Option ERow :=
    if st.cur_y ≥ n then none else some (st.rows.getD st.cur_y.toNat default)
  let st :=
    if key = ARR_UP then
      if st.cur_y ≠ 0 then { st with cur_y := st.cur_y - 1 } else st
    else if key = ARR_DOWN then
      if st.cur_y < n then { st with cur_y := st.cur_y + 1 } else st
    else if key = ARR_LEFT then
      if st.cur_x ≠ 0 then { st with cur_x := st.cur_x - 1 }
      else if st.cur_y > 0 then
        { st with
          cur_y := st.cur_y - 1
          cur_x := (st.rows.getD (st.cur_y - 1).toNat default).size }
      else st
    else if key = ARR_RIGHT then
      match row? with
      | none => st
      | some row =>
        if st.cur_x < row.size then { st with cur_x := st.cur_x + 1 }
        else if st.cur_x = row.size then { st with cur_y := st.cur_y + 1, cur_x := 0 }
        else st
    else st
  let row_len : Int :=
    if st.cur_y ≥ n then 0 else (st.rows.getD st.cur_y.toNat default).size
  if st.cur_x > row_len then { st with cur_x := row_len } else st

/-- The Page Up / Page Down block of `texProcessKey`: jump `cur_y` to the
top (respectively bottom, clamped to `n_rows`) of the viewport, then repeat
a single-step arrow move; `while (--times)` starting from `times = dispRows`
runs `dispRows - 1` iterations (the C loop does not terminate for
`dispRows ≤ 0`; the model performs no iterations there). -/
def pageMove (st : EState) (c : Nat) : EState :=
  let st :=
    if c = PAGE_UP then { st with cur_y := st.off_row }
    else
      let y := st.off_row + st.dispRows - 1
      { st with cur_y := if y > st.n_rows then st.n_rows else y }
  (fun s => texNavCursor s (if c = PAGE_UP then ARR_UP else ARR_DOWN))^[(st.dispRows - 1).toNat] st

/-- Result of one `texProcessKey` call: the editor either exits (Ctrl-Q
accepted) or continues with an updated quit-confirmation counter (the
function's `static int confirm_exit`) and session state. -/
inductive ProcResult where
  | exit : ProcResult
  | cont (confirm : Int) (st : EState) : ProcResult
deriving Repr, DecidableEq

/-- The continuation counter of a `ProcResult`, if the editor kept running. -/
def ProcResult.confirmOut : ProcResult → Option Int
  | .exit => none
  | .cont k _ => some k

/-- The continuation state of a `ProcResult`, if the editor kept running. -/
def ProcResult.stateOut : ProcResult → Option EState
  | .exit => none
  | .cont _ st => some st

/-- `texProcessKey` on an already-decoded key `c`.  `confirm` is the value
of the `static int confirm_exit` on entry.  On Ctrl-Q with unsaved changes
and a positive counter it warns, decrements the counter and returns early
(skipping the reset); otherwise Ctrl-Q exits.  Every other key is
dispatched and then the counter is reset to `FORCE_QUIT`.  `editorSave`
performs file I/O and a prompt, so it is passed in as `save`; it cannot
touch `confirm_exit`, a local of `texProcessKey`. -/
def texProcessKey (save : EState → EState) (confirm : Int) (c : Nat) (st : EState) :
    ProcResult :=
  if c = CTRL_Q then
    if st.mod ≠ 0 ∧ confirm > 0 then .cont (confirm - 1) st
    else .exit
  else
    let st :=
      if c = CTRL_S then save st
      else if c = ARR_UP ∨ c = ARR_DOWN ∨ c = ARR_LEFT ∨ c = ARR_RIGHT then
        texNavCursor st c
      else if c = PAGE_UP ∨ c = PAGE_DOWN then pageMove st c
      else if c = HOME_KEY then { st with cur_x := 0 }
      else if c = END_KEY then
        if st.cur_y < st.n_rows then
          { st with cur_x := (st.rows.getD st.cur_y.toNat default).size }
        else st
      else if c = BKSP_KEY ∨ c = CTRL_H ∨ c = DEL_KEY then
        editorRemoveChar (if c = DEL_KEY then texNavCursor st ARR_RIGHT else st)
      else if c = CTRL_L ∨ c = 27 then st
      else if c = 13 then editorInsertNewLine st
      else editorInputChar st c
    .cont FORCE_QUIT st

/-- Feed a sequence of decoded keys through `texProcessKey` (with `save`
modelled as the identity), threading the confirmation counter; `none` when
some key exits the editor. -/
def runKeys : List Nat → Int × EState → Option (Int × EState)
  | [], p => some p
  | c :: cs, (confirm, st) =>
    match texProcessKey id confirm c st with
    | .exit => none
    | .cont k st1 => runKeys cs (k, st1)

/-- `texReadKey` on a byte stream whose first byte is `first` and whose
buffered continuation bytes are `rest`: a non-ESC byte passes through; after
an ESC the decoder reads up to two (for `[` + digit, three) further bytes,
an exhausted stream or an unrecognized sequence yielding the literal ESC
(27). -/
def texReadKey (first : Nat) (rest : List Nat) : Nat :=
  if first = 27 then
    match rest with
    | [] => 27
    | [_] => 27
    | k0 :: k1 :: rest2 =>
      if k0 = 91 then
        if 48 ≤ k1 ∧ k1 ≤ 57 then
          match rest2 with
          | [] => 27
          | k2 :: _ =>
            if k2 = 126 then
              if k1 = 49 then HOME_KEY
              else if k1 = 51 then DEL_KEY
              else if k1 = 52 then END_KEY
              else if k1 = 53 then PAGE_UP
              else if k1 = 54 then PAGE_DOWN
              else if k1 = 55 then HOME_KEY
              else if k1 = 56 then END_KEY
              else 27
            else 27
        else
          if k1 = 65 then ARR_UP
          else if k1 = 66 then ARR_DOWN
          else if k1 = 68 then ARR_LEFT
          else if k1 = 67 then ARR_RIGHT
          else if k1 = 72 then HOME_KEY
          else if k1 = 70 then END_KEY
          else 27
      else if k0 = 79 then
        if k1 = 72 then HOME_KEY
        else if k1 = 70 then END_KEY
        else 27
      else 27
  else first

/-- Modelled from the spec (§4.1 table): the escape-sequence continuations
the decoder recognizes and maps to a named key — `[A`, `[B`, `[D`, `[C`,
`[H`, `[F`, `OH`, `OF`, and `[d~` for `d` in 1, 3, 4, 5, 6, 7, 8. -/
def escTable : List (List Nat) :=
  [[91, 65], [91, 66], [91, 68], [91, 67], [91, 72], [91, 70],
   [79, 72], [79, 70],
   [91, 49, 126], [91, 51, 126], [91, 52, 126], [91, 53, 126],
   [91, 54, 126], [91, 55, 126], [91, 56, 126]]

/-- A continuation byte stream starts with a recognized escape sequence. -/
def recognizedEsc (rest : List Nat) : Bool :=
  escTable.any (fun p => p.isPrefixOf rest)

/-- A row is serializable without loss: no newline byte inside, no trailing
carriage return (the save format cannot distinguish a trailing `'\r'` from
a stripped line terminator). -/
def goodRow (r : ERow) : Bool :=
  decide (10 ∉ r.chars) && decide (r.chars.getLast? ≠ some 13)

/-- The chars list left by inserting an element at position `a ≤ l.length`
and then running the `utilCharDel` shift-and-shrink at the same position is
the original list. -/
theorem insert_del_chars {α : Type} (l : List α) (a : Nat) (c : α)
    (h : a ≤ l.length) :
    ((l.take a ++ c :: l.drop a).take a ++ (l.take a ++ c :: l.drop a).drop (a + 1)).take
      ((l.take a ++ c :: l.drop a).length - 1) = l := by
  have hta : (l.take a).length = a := by
    simp [List.length_take]; omega
  have h1 : (l.take a ++ c :: l.drop a).take a = l.take a := by
    rw [List.take_append_eq_append_take, hta]
    simp [List.take_take]
  have h2 : (l.take a ++ c :: l.drop a).drop (a + 1) = l.drop a := by
    rw [List.drop_append_eq_append_drop, hta]
    simp
  have h3 : (l.take a ++ c :: l.drop a).length = l.length + 1 := by
    simp [hta]; omega
  rw [h1, h2, h3, List.take_append_drop]
  simp

end TEx

namespace TEx

/-- C2: `utilCharDel` is NOT a no-op at every column outside `[0, size)`:
at `col = size` (here the row `"a"` with `size = 1` and `col = 1`) it drops
the last byte, because the guard only rejects `col > size`. -/
theorem claim2_counterexample :
    ((mkRow [97]).size ≤ 1) ∧ utilCharDel (mkRow [97]) 1 ≠ mkRow [97] := by
  decide

/-- C2 (amended): `utilCharDel` is a no-op — `chars`, `size` and `render`
unchanged — exactly when the column is outside `[0, size]`, that is for
`col < 0` or `col > size`; at `col = size` it instead drops the last byte. -/
theorem claim2_del_out_of_range_noop (row : ERow) (pos : Int)
    (h : pos < 0 ∨ pos > row.size) :
    utilCharDel row pos = row := by
  unfold utilCharDel
  rw [if_pos h]

/-- Witness for the amended C2 at the row `"a"` and column 2. -/
theorem claim2_witness :
    ((2 : Int) < 0 ∨ (2 : Int) > (mkRow [97]).size) ∧
      utilCharDel (mkRow [97]) 2 = mkRow [97] :=
  ⟨by decide, claim2_del_out_of_range_noop (mkRow [97]) 2 (by decide)⟩

/-- C3: for every row and every column in `[0, size]`, `utilCharInsert` of
any byte followed by `utilCharDel` at the same column restores the row's
`chars` byte-for-byte, and the resulting `render` is the tab expansion of
the restored content. -/
theorem claim3_insert_delete_inverse (row : ERow) (pos : Int) (c : Nat)
    (h0 : 0 ≤ pos) (h1 : pos ≤ row.size) :
    (utilCharDel (utilCharInsert row pos c) pos).chars = row.chars ∧
      (utilCharDel (utilCharInsert row pos c) pos).render = renderChars row.chars := by
  have hsz : row.size = (row.chars.length : Int) := rfl
  have hle : pos.toNat ≤ row.chars.length := by omega
  have hg : ¬(pos < 0 ∨ pos > row.size) := by omega
  have hins : (utilCharInsert row pos c).chars =
      row.chars.take pos.toNat ++ c :: row.chars.drop pos.toNat := by
    unfold utilCharInsert editorUpdateRow
    simp only [if_neg hg]
  have hinslen : ((utilCharInsert row pos c).chars).length = row.chars.length + 1 := by
    rw [hins]
    simp [List.length_take]
    omega
  have hg2 : ¬(pos < 0 ∨ pos > (utilCharInsert row pos c).size) := by
    have : (utilCharInsert row pos c).size =
        (((utilCharInsert row pos c).chars).length : Int) := rfl
    rw [this, hinslen] at *
    omega
  have hchars : (utilCharDel (utilCharInsert row pos c) pos).chars = row.chars := by
    unfold utilCharDel
    rw [if_neg hg2]
    show ((utilCharInsert row pos c).chars.take pos.toNat ++
        (utilCharInsert row pos c).chars.drop (pos.toNat + 1)).take
          ((utilCharInsert row pos c).chars.length - 1) = row.chars
    rw [hins]
    exact insert_del_chars row.chars pos.toNat c hle
  refine ⟨hchars, ?_⟩
  have : (utilCharDel (utilCharInsert row pos c) pos).render =
      renderChars (utilCharDel (utilCharInsert row pos c) pos).chars := by
    unfold utilCharDel
    rw [if_neg hg2]
    rfl
  rw [this, hchars]

/-- Witness for C3 at the row `"ab"`, column 1, inserted byte `'c'`. -/
theorem claim3_witness :
    ((0 : Int) ≤ 1 ∧ (1 : Int) ≤ (mkRow [97, 98]).size) ∧
      (utilCharDel (utilCharInsert (mkRow [97, 98]) 1 99) 1).chars = (mkRow [97, 98]).chars ∧
      (utilCharDel (utilCharInsert (mkRow [97, 98]) 1 99) 1).render =
        renderChars (mkRow [97, 98]).chars :=
  ⟨⟨by decide, by decide⟩,
    claim3_insert_delete_inverse (mkRow [97, 98]) 1 99 (by decide) (by decide)⟩

/-- C5: the row `"a\tb"` renders as `'a'`, seven spaces, `'b'` with render
length 9, and `utilCur2Ren` at raw column 2 returns 8. -/
theorem claim5_tab_render :
    (mkRow [97, 9, 98]).render = [97, 32, 32, 32, 32, 32, 32, 32, 98] ∧
      (mkRow [97, 9, 98]).ren_sz = 9 ∧
      utilCur2Ren (mkRow [97, 9, 98]) 2 = 8 := by
  decide

/-- The `getline` loop isolates the first newline-terminated chunk: a
newline-free line followed by `'\n'` and further bytes splits off as one
chunk (keeping its terminator). -/
theorem splitLinesAux_line (line : List Nat) (h : 10 ∉ line) :
    ∀ (rest acc : List Nat),
      splitLinesAux (line ++ 10 :: rest) acc =
        (acc.reverse ++ line ++ [10]) :: splitLinesAux rest [] := by
  induction line with
  | nil =>
    intro rest acc
    simp [splitLinesAux]
  | cons c l ih =>
    intro rest acc
    have hc : c ≠ 10 := by
      intro hceq
      exact h (hceq ▸ List.mem_cons_self c l)
    have hl : 10 ∉ l := fun hm => h (List.mem_cons_of_mem c hm)
    show splitLinesAux (c :: (l ++ 10 :: rest)) acc = _
    rw [splitLinesAux, if_neg hc, ih hl rest (c :: acc)]
    simp

/-- Stripping trailing `'\n'`/`'\r'` from a serialized line recovers the
row content, provided the content has no newline byte and does not end in a
carriage return. -/
theorem strip_line_of_goodRow (line : List Nat) (h10 : 10 ∉ line)
    (h13 : line.getLast? ≠ some 13) :
    stripTrailingNLCR (line ++ [10]) = line := by
  unfold stripTrailingNLCR
  have h1 : (line ++ [10]).reverse = 10 :: line.reverse := by simp
  rw [h1, List.dropWhile_cons, if_pos (by decide)]
  cases hrev : line.reverse with
  | nil =>
    have hl : line = [] := by simpa using congrArg List.reverse hrev
    simp [hl]
  | cons b bs =>
    have hb_last : line.getLast? = some b := by
      rw [← List.head?_reverse, hrev]
      rfl
    have hb13 : b ≠ 13 := fun hbe => h13 (hbe ▸ hb_last)
    have hb_mem : b ∈ line := by
      have hmem : b ∈ line.reverse := by rw [hrev]; exact List.mem_cons_self b bs
      simpa using hmem
    have hb10 : b ≠ 10 := fun hbe => h10 (hbe ▸ hb_mem)
    rw [List.dropWhile_cons, if_neg (by simp [hb10, hb13])]
    rw [← hrev]
    simp

/-- C4: the save/open round trip is NOT content-preserving for every
newline-free row sequence: the single row `"a\r"` (no newline byte)
serializes to `"a\r\n"`, and `editorOpen` strips the trailing `'\r'`
together with the terminator, reloading it as `"a"`. -/
theorem claim4_counterexample :
    10 ∉ (mkRow [97, 13]).chars ∧
      (editorOpenRows (utilRow2Str [mkRow [97, 13]])).map ERow.chars ≠
        [mkRow [97, 13]].map ERow.chars := by
  decide

/-- C4 (amended): for every sequence of rows none containing a newline byte
and none ending in a carriage return (possibly including empty rows and
empty trailing rows), serializing with `utilRow2Str` (rows joined by `'\n'`
with a trailing `'\n'`) and reloading with `editorOpen`'s line loop
reproduces an identical sequence of row contents, byte-for-byte. -/
theorem claim4_roundtrip_amended (rows : List ERow) (h : rows.all goodRow = true) :
    (editorOpenRows (utilRow2Str rows)).map ERow.chars = rows.map ERow.chars := by
  induction rows with
  | nil => rfl
  | cons r rs ih =>
    have hr : goodRow r = true := by
      have := List.all_eq_true.mp h
      exact this r (List.mem_cons_self r rs)
    have hrs : rs.all goodRow = true := by
      rw [List.all_eq_true] at h ⊢
      exact fun x hx => h x (List.mem_cons_of_mem r hx)
    have h10 : 10 ∉ r.chars := by
      unfold goodRow at hr
      simp only [Bool.and_eq_true, decide_eq_true_eq] at hr
      exact hr.1
    have h13 : r.chars.getLast? ≠ some 13 := by
      unfold goodRow at hr
      simp only [Bool.and_eq_true, decide_eq_true_eq] at hr
      exact hr.2
    show (editorOpenRows (r.chars ++ 10 :: utilRow2Str rs)).map ERow.chars = _
    unfold editorOpenRows
    rw [splitLinesAux_line r.chars h10 (utilRow2Str rs) []]
    simp only [List.map_cons, List.reverse_nil, List.nil_append]
    rw [strip_line_of_goodRow r.chars h10 h13]
    exact congrArg (List.cons (mkRow r.chars).chars) (ih hrs)

/-- Witness for the amended C4 on the rows `["ab", "", ""]` (an interior
and a trailing empty row). -/
theorem claim4_witness :
    ([mkRow [97, 98], mkRow [], mkRow []].all goodRow = true) ∧
      (editorOpenRows (utilRow2Str [mkRow [97, 98], mkRow [], mkRow []])).map ERow.chars =
        [mkRow [97, 98], mkRow [], mkRow []].map ERow.chars :=
  ⟨by decide, claim4_roundtrip_amended [mkRow [97, 98], mkRow [], mkRow []] (by decide)⟩

set_option maxHeartbeats 800000 in
/-- Two buffered continuation bytes that start no recognized sequence
decode to the literal ESC. -/
theorem texReadKey_twoByte_unrec (k0 k1 : Nat)
    (hp : ∀ p ∈ escTable, p.isPrefixOf [k0, k1] = false) :
    texReadKey 27 [k0, k1] = 27 := by
  unfold texReadKey
  rw [if_pos rfl]
  dsimp only
  repeat' split
  all_goals first
    | rfl
    | (exfalso; subst_vars; simp [escTable, List.isPrefixOf] at hp)

set_option maxHeartbeats 800000 in
/-- Three or more buffered continuation bytes that start no recognized
sequence decode to the literal ESC. -/
theorem texReadKey_threeByte_unrec (k0 k1 k2 : Nat) (r3 : List Nat)
    (hp : ∀ p ∈ escTable, p.isPrefixOf (k0 :: k1 :: k2 :: r3) = false) :
    texReadKey 27 (k0 :: k1 :: k2 :: r3) = 27 := by
  unfold texReadKey
  rw [if_pos rfl]
  dsimp only
  repeat' split
  all_goals first
    | rfl
    | (exfalso; subst_vars; simp [escTable, List.isPrefixOf] at hp)

/-- C9: for every byte stream beginning with ESC whose continuation bytes
do not start with a sequence of the recognized table — in particular when
a continuation read finds the stream exhausted — `texReadKey` returns the
literal ESC key 27 (never an error value, never another key). -/
theorem claim9_esc_degradation (rest : List Nat) (h : recognizedEsc rest = false) :
    texReadKey 27 rest = 27 := by
  have hp : ∀ p ∈ escTable, p.isPrefixOf rest = false := by
    intro p hpmem
    by_contra hcon
    have htrue : recognizedEsc rest = true := by
      unfold recognizedEsc
      rw [List.any_eq_true]
      exact ⟨p, hpmem, by simpa using Bool.not_eq_false _ |>.mp hcon⟩
    rw [h] at htrue
    exact Bool.false_ne_true htrue
  rcases rest with _ | ⟨k0, _ | ⟨k1, _ | ⟨k2, r3⟩⟩⟩
  · rfl
  · rfl
  · exact texReadKey_twoByte_unrec k0 k1 hp
  · exact texReadKey_threeByte_unrec k0 k1 k2 r3 hp

/-- Witness for C9: an ESC followed by nothing at all (both continuation
reads fail) decodes to the literal ESC key. -/
theorem claim9_witness :
    recognizedEsc [] = false ∧ texReadKey 27 [] = 27 :=
  ⟨by decide, claim9_esc_degradation [] (by decide)⟩

/-- C6: after `editorScroll` (run before every frame), with at least one
display row and column and a nonnegative `cur_y`, the cursor lies inside
the viewport: `off_row ≤ cur_y < off_row + dispRows` and
`off_col ≤ ren_x < off_col + dispCols` (with `ren_x` derived from `cur_x`
inside `editorScroll` itself); the clamps hold for any state these bounds
admit, hence after any sequence of navigation keys. -/
theorem claim6_scroll_invariant (st : EState)
    (hr : 1 ≤ st.dispRows) (hc : 1 ≤ st.dispCols) (_hy : 0 ≤ st.cur_y) :
    (editorScroll st).off_row ≤ (editorScroll st).cur_y ∧
      (editorScroll st).cur_y < (editorScroll st).off_row + (editorScroll st).dispRows ∧
      (editorScroll st).off_col ≤ (editorScroll st).ren_x ∧
      (editorScroll st).ren_x < (editorScroll st).off_col + (editorScroll st).dispCols := by
  unfold editorScroll
  dsimp only
  split_ifs <;> omega

/-- Witness for C6: a 1×1 display with the cursor far below and right of
the current offsets. -/
theorem claim6_witness :
    ((1 : Int) ≤ 1 ∧ (1 : Int) ≤ 1 ∧ (0 : Int) ≤ 25) ∧
      ((editorScroll
          { rows := [], cur_x := 3, cur_y := 25, ren_x := 0, off_row := 0, off_col := 0
            dispRows := 1, dispCols := 1, mod := 0 }).off_row ≤
        (editorScroll
          { rows := [], cur_x := 3, cur_y := 25, ren_x := 0, off_row := 0, off_col := 0
            dispRows := 1, dispCols := 1, mod := 0 }).cur_y ∧
       (editorScroll
          { rows := [], cur_x := 3, cur_y := 25, ren_x := 0, off_row := 0, off_col := 0
            dispRows := 1, dispCols := 1, mod := 0 }).cur_y <
        (editorScroll
          { rows := [], cur_x := 3, cur_y := 25, ren_x := 0, off_row := 0, off_col := 0
            dispRows := 1, dispCols := 1, mod := 0 }).off_row +
          (editorScroll
            { rows := [], cur_x := 3, cur_y := 25, ren_x := 0, off_row := 0, off_col := 0
              dispRows := 1, dispCols := 1, mod := 0 }).dispRows ∧
       (editorScroll
          { rows := [], cur_x := 3, cur_y := 25, ren_x := 0, off_row := 0, off_col := 0
            dispRows := 1, dispCols := 1, mod := 0 }).off_col ≤
        (editorScroll
          { rows := [], cur_x := 3, cur_y := 25, ren_x := 0, off_row := 0, off_col := 0
            dispRows := 1, dispCols := 1, mod := 0 }).ren_x ∧
       (editorScroll
          { rows := [], cur_x := 3, cur_y := 25, ren_x := 0, off_row := 0, off_col := 0
            dispRows := 1, dispCols := 1, mod := 0 }).ren_x <
        (editorScroll
          { rows := [], cur_x := 3, cur_y := 25, ren_x := 0, off_row := 0, off_col := 0
            dispRows := 1, dispCols := 1, mod := 0 }).off_col +
          (editorScroll
            { rows := [], cur_x := 3, cur_y := 25, ren_x := 0, off_row := 0, off_col := 0
              dispRows := 1, dispCols := 1, mod := 0 }).dispCols) :=
  ⟨⟨by decide, by decide, by decide⟩,
    claim6_scroll_invariant
      { rows := [], cur_x := 3, cur_y := 25, ren_x := 0, off_row := 0, off_col := 0
        dispRows := 1, dispCols := 1, mod := 0 }
      (by decide) (by decide) (by decide)⟩

/-- Taking one element past an updated index splits off the written value. -/
theorem take_succ_set {α : Type} (l : List α) (j : Nat) (a : α) (h : j < l.length) :
    (l.set j a).take (j + 1) = l.take j ++ [a] := by
  rw [List.set_eq_take_cons_drop a h, List.take_append_eq_append_take]
  have hlen : (l.take j).length = j := by simp; omega
  rw [List.take_take, hlen]
  simp [Nat.min_def]

/-- Dropping strictly past an updated index ignores the update. -/
theorem drop_set_of_lt {α : Type} (l : List α) (j m : Nat) (a : α) (hj : j < l.length)
    (h : j < m) : (l.set j a).drop m = l.drop m := by
  rw [List.set_eq_take_cons_drop a hj, List.drop_append_eq_append_drop]
  have hlen : (l.take j).length = j := by simp; omega
  rw [hlen]
  have h1 : (l.take j).drop m = [] := by
    apply List.drop_eq_nil_of_le
    simp
    omega
  rw [h1]
  simp
  cases hmj : m - j with
  | zero => omega
  | succ mj =>
    simp
    congr 1
    omega

/-- C7: backspace at column 0 of a row `0 < y < n` appends row `y`'s
content onto the end of row `y-1`, removes row `y` (the row count drops by
one), moves the cursor to `(former size of row y-1, y-1)` and counts two
modifications; backspace at column 0 of the first row — which covers the
empty buffer, where `cur_y = 0 = n` — leaves everything unchanged. -/
theorem claim7_backspace_merge (st : EState) :
    (0 < st.cur_y → st.cur_y < st.n_rows → st.cur_x = 0 →
      editorRemoveChar st =
        { st with
          rows := st.rows.take (st.cur_y.toNat - 1) ++
            mkRow ((st.rows.getD (st.cur_y.toNat - 1) default).chars ++
              (st.rows.getD st.cur_y.toNat default).chars) ::
            st.rows.drop (st.cur_y.toNat + 1)
          cur_x := (st.rows.getD (st.cur_y.toNat - 1) default).size
          cur_y := st.cur_y - 1
          mod := st.mod + 2 }) ∧
    (st.cur_x = 0 → st.cur_y = 0 → editorRemoveChar st = st) := by
  constructor
  · intro h1 h2 hx
    have hn : st.n_rows = (st.rows.length : Int) := rfl
    have hk : st.cur_y.toNat < st.rows.length := by omega
    have hj : st.cur_y.toNat - 1 < st.rows.length := by omega
    have hjn : (st.cur_y - 1).toNat = st.cur_y.toNat - 1 := by omega
    have hg1 : ¬(st.cur_y = st.n_rows) := by omega
    have hg2 : ¬(st.cur_x = 0 ∧ st.cur_y = 0) := by omega
    have hg3 : ¬(st.cur_x > 0) := by omega
    unfold editorRemoveChar
    rw [if_neg hg1, if_neg hg2, if_neg hg3]
    dsimp only
    unfold editorRemoveRow
    have hlenset : ∀ (a : ERow),
        (st.rows.set (st.cur_y - 1).toNat a).length = st.rows.length := by
      intro a
      simp
    have hg4 : ∀ (a : ERow), ¬(st.cur_y < 0 ∨ st.cur_y ≥
        (({ st with
            cur_x := (st.rows.getD (st.cur_y - 1).toNat default).size
            rows := st.rows.set (st.cur_y - 1).toNat a
            mod := st.mod + 1 } : EState)).n_rows) := by
      intro a
      simp only [EState.n_rows, hlenset]
      omega
    rw [if_neg (hg4 _)]
    dsimp only
    rw [hjn]
    have hmerge : editorAppendString (st.rows.getD (st.cur_y.toNat - 1) default)
        (st.rows.getD st.cur_y.toNat default).chars =
        mkRow ((st.rows.getD (st.cur_y.toNat - 1) default).chars ++
          (st.rows.getD st.cur_y.toNat default).chars) := rfl
    rw [hmerge]
    simp only [EState.mk.injEq]
    refine ⟨?_, trivial, trivial, trivial, trivial, trivial, trivial, trivial, by omega⟩
    have htake : ∀ a : ERow,
        (st.rows.set (st.cur_y.toNat - 1) a).take st.cur_y.toNat =
          st.rows.take (st.cur_y.toNat - 1) ++ [a] := by
      intro a
      have h' := take_succ_set st.rows (st.cur_y.toNat - 1) a hj
      rwa [Nat.sub_add_cancel (by omega)] at h'
    rw [htake _, drop_set_of_lt _ _ _ _ hj (by omega)]
    simp
  · intro hx hy
    by_cases hyn : st.cur_y = st.n_rows
    · unfold editorRemoveChar
      rw [if_pos hyn]
    · unfold editorRemoveChar
      rw [if_neg hyn, if_pos ⟨hx, hy⟩]

/-- Witness for C7: merging `"cd"` onto `"ab"` from `(0, 1)` in the buffer
`["ab", "cd", ""]`, and the no-op at `(0, 0)`. -/
theorem claim7_witness :
    (editorRemoveChar
        { rows := [mkRow [97, 98], mkRow [99, 100], mkRow []]
          cur_x := 0, cur_y := 1, ren_x := 0, off_row := 0, off_col := 0
          dispRows := 10, dispCols := 10, mod := 0 } =
      { ({ rows := [mkRow [97, 98], mkRow [99, 100], mkRow []]
           cur_x := 0, cur_y := 1, ren_x := 0, off_row := 0, off_col := 0
           dispRows := 10, dispCols := 10, mod := 0 } : EState) with
        rows := ([mkRow [97, 98], mkRow [99, 100], mkRow []].take 0) ++
          mkRow (([mkRow [97, 98], mkRow [99, 100], mkRow []].getD 0 default).chars ++
            ([mkRow [97, 98], mkRow [99, 100], mkRow []].getD 1 default).chars) ::
          ([mkRow [97, 98], mkRow [99, 100], mkRow []].drop 2)
        cur_x := ([mkRow [97, 98], mkRow [99, 100], mkRow []].getD 0 default).size
        cur_y := (1 : Int) - 1
        mod := (0 : Int) + 2 }) ∧
      editorRemoveChar
        { rows := [mkRow [97, 98]]
          cur_x := 0, cur_y := 0, ren_x := 0, off_row := 0, off_col := 0
          dispRows := 10, dispCols := 10, mod := 0 } =
      { rows := [mkRow [97, 98]]
        cur_x := 0, cur_y := 0, ren_x := 0, off_row := 0, off_col := 0
        dispRows := 10, dispCols := 10, mod := 0 } :=
  ⟨(claim7_backspace_merge
      { rows := [mkRow [97, 98], mkRow [99, 100], mkRow []]
        cur_x := 0, cur_y := 1, ren_x := 0, off_row := 0, off_col := 0
        dispRows := 10, dispCols := 10, mod := 0 }).1 (by decide) (by decide) rfl,
   (claim7_backspace_merge
      { rows := [mkRow [97, 98]]
        cur_x := 0, cur_y := 0, ren_x := 0, off_row := 0, off_col := 0
        dispRows := 10, dispCols := 10, mod := 0 }).2 rfl rfl⟩

/-- C8: from the buffer `["ab", "cd", ""]` with the cursor at `(0, 0)`,
the key sequence End, Enter, `'x'` (fed through `texProcessKey`) yields
rows `["ab", "x", "cd", ""]` with the cursor at `(cur_x = 1, cur_y = 1)`. -/
theorem claim8_scenario :
    (runKeys [END_KEY, 13, 120]
        (FORCE_QUIT,
          { rows := [mkRow [97, 98], mkRow [99, 100], mkRow []]
            cur_x := 0, cur_y := 0, ren_x := 0, off_row := 0, off_col := 0
            dispRows := 10, dispCols := 10, mod := 0 })).map
      (fun p => (p.2.rows.map ERow.chars, p.2.cur_x, p.2.cur_y)) =
      some ([[97, 98], [120], [99, 100], []], 1, 1) := by
  decide

/-- `editorRemoveChar` does nothing on the virtual append row. -/
theorem editorRemoveChar_virtual (st : EState) (hy : st.cur_y = st.n_rows) :
    editorRemoveChar st = st := by
  unfold editorRemoveChar
  rw [if_pos hy]

/-- An Arrow-Right step from the virtual append position (where the data
model forces `cur_x = 0`) moves nothing: the row pointer is null and the
final clamp keeps `cur_x` at 0. -/
theorem texNavCursor_right_virtual (st : EState) (hy : st.cur_y = st.n_rows)
    (hx : st.cur_x = 0) : texNavCursor st ARR_RIGHT = st := by
  unfold texNavCursor
  have hge : st.cur_y ≥ st.n_rows := ge_of_eq hy
  simp only [ARR_UP, ARR_DOWN, ARR_LEFT, ARR_RIGHT, if_pos hge]
  norm_num
  rw [if_pos hge]
  simp [hx]

/-- C10: with at least one row and the cursor at the virtual append
position (`cur_y = n`, where the data model pins `cur_x = 0`), Backspace,
Ctrl-H and Delete each leave the whole session state — rows, cursor and
modified counter — unchanged, and reset the quit counter as any non-quit
key does. -/
theorem claim10_virtual_append_noop (save : EState → EState) (confirm : Int)
    (st : EState) (_hne : st.rows ≠ []) (hy : st.cur_y = st.n_rows)
    (hx : st.cur_x = 0) :
    texProcessKey save confirm BKSP_KEY st = .cont FORCE_QUIT st ∧
      texProcessKey save confirm CTRL_H st = .cont FORCE_QUIT st ∧
      texProcessKey save confirm DEL_KEY st = .cont FORCE_QUIT st := by
  refine ⟨?_, ?_, ?_⟩
  · unfold texProcessKey
    norm_num [BKSP_KEY, CTRL_Q, CTRL_S, ARR_UP, ARR_DOWN, ARR_LEFT, ARR_RIGHT,
      PAGE_UP, PAGE_DOWN, HOME_KEY, END_KEY, DEL_KEY, CTRL_H, CTRL_L]
    rw [editorRemoveChar_virtual st hy]
  · unfold texProcessKey
    norm_num [BKSP_KEY, CTRL_Q, CTRL_S, ARR_UP, ARR_DOWN, ARR_LEFT, ARR_RIGHT,
      PAGE_UP, PAGE_DOWN, HOME_KEY, END_KEY, DEL_KEY, CTRL_H, CTRL_L]
    rw [editorRemoveChar_virtual st hy]
  · unfold texProcessKey
    norm_num [BKSP_KEY, CTRL_Q, CTRL_S, ARR_UP, ARR_DOWN, ARR_LEFT, ARR_RIGHT,
      PAGE_UP, PAGE_DOWN, HOME_KEY, END_KEY, DEL_KEY, CTRL_H, CTRL_L]
    have hnav := texNavCursor_right_virtual st hy hx
    simp only [ARR_RIGHT] at hnav
    rw [hnav, editorRemoveChar_virtual st hy]

/-- Witness for C10 on the one-row buffer `["ab"]` with the cursor on the
virtual append row below it. -/
theorem claim10_witness :
    texProcessKey id 2 BKSP_KEY
        { rows := [mkRow [97, 98]]
          cur_x := 0, cur_y := 1, ren_x := 0, off_row := 0, off_col := 0
          dispRows := 10, dispCols := 10, mod := 0 } =
      .cont FORCE_QUIT
        { rows := [mkRow [97, 98]]
          cur_x := 0, cur_y := 1, ren_x := 0, off_row := 0, off_col := 0
          dispRows := 10, dispCols := 10, mod := 0 } ∧
      texProcessKey id 2 CTRL_H
        { rows := [mkRow [97, 98]]
          cur_x := 0, cur_y := 1, ren_x := 0, off_row := 0, off_col := 0
          dispRows := 10, dispCols := 10, mod := 0 } =
      .cont FORCE_QUIT
        { rows := [mkRow [97, 98]]
          cur_x := 0, cur_y := 1, ren_x := 0, off_row := 0, off_col := 0
          dispRows := 10, dispCols := 10, mod := 0 } ∧
      texProcessKey id 2 DEL_KEY
        { rows := [mkRow [97, 98]]
          cur_x := 0, cur_y := 1, ren_x := 0, off_row := 0, off_col := 0
          dispRows := 10, dispCols := 10, mod := 0 } =
      .cont FORCE_QUIT
        { rows := [mkRow [97, 98]]
          cur_x := 0, cur_y := 1, ren_x := 0, off_row := 0, off_col := 0
          dispRows := 10, dispCols := 10, mod := 0 } :=
  claim10_virtual_append_noop id 2
    { rows := [mkRow [97, 98]]
      cur_x := 0, cur_y := 1, ren_x := 0, off_row := 0, off_col := 0
      dispRows := 10, dispCols := 10, mod := 0 }
    (by decide) (by decide) rfl

/-- C1: pressing Ctrl-Q exactly twice with unsaved changes does NOT exit:
from the initial counter value 2 the first press decrements to 1 and the
second to 0, both returning to the loop; the editor is still running
(`some`, not `none`) after the second press. -/
theorem claim1_counterexample :
    ({ rows := [mkRow [97]]
       cur_x := 0, cur_y := 0, ren_x := 0, off_row := 0, off_col := 0
       dispRows := 10, dispCols := 10, mod := 1 } : EState).mod ≠ 0 ∧
      runKeys [CTRL_Q, CTRL_Q]
        (FORCE_QUIT,
          { rows := [mkRow [97]]
            cur_x := 0, cur_y := 0, ren_x := 0, off_row := 0, off_col := 0
            dispRows := 10, dispCols := 10, mod := 1 }) =
      some (0,
        { rows := [mkRow [97]]
          cur_x := 0, cur_y := 0, ren_x := 0, off_row := 0, off_col := 0
          dispRows := 10, dispCols := 10, mod := 1 }) := by
  decide

/-- C1 (amended): with the modified counter nonzero and the confirmation
counter at its initial value 2, pressing Ctrl-Q exactly THREE consecutive
times exits (two presses only warn and leave the state untouched), and any
non-quit key — whatever its effect on the session state — resets the
confirmation counter to its initial value 2. -/
theorem claim1_quit_amended (save : EState → EState) (st : EState)
    (hmod : st.mod ≠ 0) :
    runKeys [CTRL_Q, CTRL_Q] (FORCE_QUIT, st) = some (0, st) ∧
      runKeys [CTRL_Q, CTRL_Q, CTRL_Q] (FORCE_QUIT, st) = none ∧
      ∀ (confirm : Int) (c : Nat) (st2 : EState), c ≠ CTRL_Q →
        (texProcessKey save confirm c st2).confirmOut = some FORCE_QUIT := by
  have h1 : ∀ k : Int, k > 0 →
      texProcessKey id k CTRL_Q st = .cont (k - 1) st := by
    intro k hk
    unfold texProcessKey
    rw [if_pos rfl, if_pos ⟨hmod, hk⟩]
  have h3 : texProcessKey id 0 CTRL_Q st = .exit := by
    unfold texProcessKey
    rw [if_pos rfl, if_neg (fun hcon => absurd hcon.2 (by norm_num))]
  have hf1 : FORCE_QUIT - 1 = (1 : Int) := by norm_num [FORCE_QUIT]
  refine ⟨?_, ?_, ?_⟩
  · simp only [runKeys]
    rw [h1 FORCE_QUIT (by norm_num [FORCE_QUIT])]
    dsimp only
    rw [hf1, h1 1 (by norm_num)]
    dsimp only
    norm_num
  · simp only [runKeys]
    rw [h1 FORCE_QUIT (by norm_num [FORCE_QUIT])]
    dsimp only
    rw [hf1, h1 1 (by norm_num)]
    dsimp only
    norm_num
    rw [h3]
  · intro confirm c st2 hc
    unfold texProcessKey
    rw [if_neg hc]
    rfl

/-- Witness for the amended C1: on a modified one-row buffer, three
consecutive Ctrl-Q presses exit the editor. -/
theorem claim1_witness :
    ({ rows := [mkRow [97]]
       cur_x := 0, cur_y := 0, ren_x := 0, off_row := 0, off_col := 0
       dispRows := 10, dispCols := 10, mod := 1 } : EState).mod ≠ 0 ∧
      runKeys [CTRL_Q, CTRL_Q, CTRL_Q]
        (FORCE_QUIT,
          { rows := [mkRow [97]]
            cur_x := 0, cur_y := 0, ren_x := 0, off_row := 0, off_col := 0
            dispRows := 10, dispCols := 10, mod := 1 }) = none :=
  ⟨by decide,
    (claim1_quit_amended id
      { rows := [mkRow [97]]
        cur_x := 0, cur_y := 0, ren_x := 0, off_row := 0, off_col := 0
        dispRows := 10, dispCols := 10, mod := 1 } (by decide)).2.1⟩

end TEx
